import Mathlib

/-!
Shallow embedding of `scheduler/annotate.go`: the diff-annotation pass that
labels an edited job diff with the reasons each change forces a create,
destroy, in-place update or destructive (create/destroy) update, and merges
the scheduler plan's desired-update counts into each task group diff.

Go's in-place mutation is modelled by explicit state passing: every annotating
function returns the updated diff node, paired with an optional error where the
Go function can fail.  Go maps are modelled as association lists; a `nil` map
is distinguished from an allocated empty map by wrapping in `Option`.
-/

namespace NomadAnnotate

/-- Diff types of `structs.DiffType` (the field is spelled `Ty` here because
`Type` is reserved in Lean). -/
inductive DiffType
  | None
  | Added
  | Deleted
  | Edited
  deriving DecidableEq, Repr

/-- Embeds `structs.FieldDiff`: a changed primitive field. -/
structure FieldDiff where
  Name : String
  Old : String
  New : String
  Annotations : List String
  deriving DecidableEq, Repr

/-- Embeds `structs.ObjectDiff`: only the `Name` is inspected by the annotator. -/
structure ObjectDiff where
  Name : String
  deriving DecidableEq, Repr

/-- Embeds `structs.TaskDiff`. -/
structure TaskDiff where
  Ty : DiffType
  Fields : List FieldDiff
  Objects : List ObjectDiff
  Annotations : List String
  deriving DecidableEq, Repr

/-- Embeds `structs.TaskGroupDiff`.  `Updates` is Go's `map[string]uint64`:
`none` is the nil map, `some m` an allocated map with entries `m`. -/
structure TaskGroupDiff where
  Ty : DiffType
  Name : String
  Fields : List FieldDiff
  Tasks : List TaskDiff
  Updates : Option (List (String × Nat))
  Annotations : List String
  deriving DecidableEq, Repr

/-- Embeds `structs.JobDiff` (only the parts read by `Annotate`). -/
structure JobDiff where
  Ty : DiffType
  TaskGroups : List TaskGroupDiff
  deriving DecidableEq, Repr

/-- Embeds `structs.DesiredUpdates`: the per-task-group counts computed by the
scheduler. -/
structure DesiredUpdates where
  Ignore : Nat
  Place : Nat
  Migrate : Nat
  Stop : Nat
  InPlaceUpdate : Nat
  DestructiveUpdate : Nat
  deriving DecidableEq, Repr

/-- Embeds `structs.PlanAnnotations`: `DesiredTGUpdates` is a map keyed by task
group name, modelled as an association list. -/
structure PlanAnnotations where
  DesiredTGUpdates : List (String × DesiredUpdates)
  deriving DecidableEq, Repr

/-- The error returned by `strconv.Atoi` when a Count value is malformed;
it carries the offending string. -/
structure MalformedCountError where
  value : String
  deriving DecidableEq, Repr

def AnnotationForcesCreate : String := "forces create"

def AnnotationForcesDestroy : String := "forces destroy"

def AnnotationForcesInplaceUpdate : String := "forces in-place update"

def AnnotationForcesDestructiveUpdate : String := "forces create/destroy update"

def UpdateTypeIgnore : String := "ignore"

def UpdateTypeCreate : String := "create"

def UpdateTypeDestroy : String := "destroy"

def UpdateTypeMigrate : String := "migrate"

def UpdateTypeInplaceUpdate : String := "in-place update"

def UpdateTypeDestructiveUpdate : String := "create/destroy update"

/-- One decimal digit, or `none` for a non-digit character. -/
def decDigit (c : Char) : Option Nat :=
  if '0' ≤ c ∧ c ≤ '9' then some (c.toNat - '0'.toNat) else none

/-- Accumulating base-10 parse of a digit string; fails on any non-digit. -/
def parseDigits : List Char → Nat → Option Nat
  | [], acc => some acc
  | c :: cs, acc =>
    match decDigit c with
    | some d => parseDigits cs (acc * 10 + d)
    | none => none

def minInt64 : Int := -(2 ^ 63)

def maxInt64 : Int := 2 ^ 63 - 1

/-- The sign-stripping prologue of `strconv.Atoi`: consume one optional
leading '+' or '-', returning the negativity flag and the remaining
characters. -/
def splitSign : List Char → Bool × List Char
  | '+' :: rest => (false, rest)
  | '-' :: rest => (true, rest)
  | rest => (false, rest)

/-- Embeds `strconv.Atoi`: optional leading sign, then a nonempty run of decimal
digits, with the result required to fit in a (64-bit) Go `int`. -/
def goAtoi (s : String) : Option Int :=
  let signed := splitSign s.toList
  match signed.2 with
  | [] => none
  | ds =>
    match parseDigits ds 0 with
    | none => none
    | some n =>
      let v : Int := if signed.1 then -(n : Int) else (n : Int)
      if v < minInt64 ∨ maxInt64 < v then none else some v

/-- First entry of `Fields` named "Count" (the loop in
`annotateCountChange` that breaks on the first match). -/
def findCount : List FieldDiff → Option FieldDiff
  | [] => none
  | f :: fs => if f.Name == "Count" then some f else findCount fs

/-- Append `extra` to the annotation list of the first "Count" field: the
Go code holds a pointer to that entry and appends through it. -/
def updateFirstCount (extra : List String) : List FieldDiff → List FieldDiff
  | [] => []
  | f :: fs =>
    if f.Name == "Count" then
      { f with Annotations := f.Annotations ++ extra } :: fs
    else
      f :: updateFirstCount extra fs

/-- Embeds `annotateCountChange`: classify the change of the task group's "Count"
field.  Returns the updated diff and an optional error. -/
def annotateCountChange (diff : TaskGroupDiff) :
    TaskGroupDiff × Option MalformedCountError :=
  if diff.Ty ≠ DiffType.Edited then (diff, none)
  else
    match findCount diff.Fields with
    | none => (diff, none)
    | some countDiff =>
      match goAtoi countDiff.Old with
      | none => (diff, some ⟨countDiff.Old⟩)
      | some oldV =>
        match goAtoi countDiff.New with
        | none => (diff, some ⟨countDiff.New⟩)
        | some newV =>
          if oldV < newV then
            ({ diff with
                Fields := updateFirstCount [AnnotationForcesCreate] diff.Fields },
              none)
          else if newV < oldV then
            ({ diff with
                Fields := updateFirstCount [AnnotationForcesDestroy] diff.Fields },
              none)
          else
            (diff, none)

/-- The loop over `diff.Objects` in `annotateTask`: the `break` in the Go
`switch` only leaves the switch, so every object is visited and
`destructive` is never reset. -/
def objectsScan : Bool → List ObjectDiff → Bool
  | destructive, [] => destructive
  | destructive, o :: os =>
    match o.Name with
    | "LogConfig" => objectsScan destructive os
    | "Service" => objectsScan destructive os
    | "Constraint" => objectsScan destructive os
    | _ => objectsScan true os

/-- Embeds `annotateTask`: classify an edited task diff as in-place or
destructive. -/
def annotateTask (diff : TaskDiff) : TaskDiff :=
  if diff.Ty ≠ DiffType.Edited then diff
  else
    let destructive : Bool := diff.Fields.length != 0
    let destructive := objectsScan destructive diff.Objects
    if destructive then
      { diff with Annotations := diff.Annotations ++ [AnnotationForcesDestructiveUpdate] }
    else
      { diff with Annotations := diff.Annotations ++ [AnnotationForcesInplaceUpdate] }

/-- Go map lookup over the association list `DesiredTGUpdates`. -/
def lookupTG : List (String × DesiredUpdates) → String → Option DesiredUpdates
  | [], _ => none
  | (k, v) :: rest, name => if k == name then some v else lookupTG rest name

/-- Go map assignment `m[k] = v`: replace an existing entry, else add one. -/
def mapInsert (m : List (String × Nat)) (k : String) (v : Nat) :
    List (String × Nat) :=
  if m.any (fun p => p.1 == k) then
    m.map (fun p => if p.1 == k then (k, v) else p)
  else
    m ++ [(k, v)]

/-- The six guarded assignments of `annotateTaskGroup`, in source order. -/
def mergeUpdates (tg : DesiredUpdates) (m : List (String × Nat)) :
    List (String × Nat) :=
  let m := if tg.Ignore ≠ 0 then mapInsert m UpdateTypeIgnore tg.Ignore else m
  let m := if tg.Place ≠ 0 then mapInsert m UpdateTypeCreate tg.Place else m
  let m := if tg.Migrate ≠ 0 then mapInsert m UpdateTypeMigrate tg.Migrate else m
  let m := if tg.Stop ≠ 0 then mapInsert m UpdateTypeDestroy tg.Stop else m
  let m := if tg.InPlaceUpdate ≠ 0 then mapInsert m UpdateTypeInplaceUpdate tg.InPlaceUpdate else m
  let m := if tg.DestructiveUpdate ≠ 0 then mapInsert m UpdateTypeDestructiveUpdate tg.DestructiveUpdate else m
  m

/-- The "Annotate the updates" block of `annotateTaskGroup`: when the plan
has an entry for this group, lazily allocate `Updates` and copy the nonzero
counts. -/
def mergeStep (diff : TaskGroupDiff) (anns : Option PlanAnnotations) :
    TaskGroupDiff :=
  match anns with
  | none => diff
  | some a =>
    match lookupTG a.DesiredTGUpdates diff.Name with
    | none => diff
    | some tg =>
      match diff.Updates with
      | none => { diff with Updates := some (mergeUpdates tg []) }
      | some m0 => { diff with Updates := some (mergeUpdates tg m0) }

/-- Embeds `annotateTaskGroup`: merge plan counts, classify the count change, then
classify every task.  On a count error the partially updated diff is
returned alongside the error. -/
def annotateTaskGroup (diff : TaskGroupDiff) (anns : Option PlanAnnotations) :
    TaskGroupDiff × Option MalformedCountError :=
  if diff.Ty ≠ DiffType.Edited then (diff, none)
  else
    match annotateCountChange (mergeStep diff anns) with
    | (d2, some e) => (d2, some e)
    | (d2, none) => ({ d2 with Tasks := d2.Tasks.map annotateTask }, none)

/-- The task-group loop of `Annotate`: stops at the first failing group,
leaving the later groups untouched. -/
def annotateTGs (anns : Option PlanAnnotations) :
    List TaskGroupDiff → List TaskGroupDiff × Option MalformedCountError
  | [] => ([], none)
  | tg :: tgs =>
    match annotateTaskGroup tg anns with
    | (tg2, some e) => (tg2 :: tgs, some e)
    | (tg2, none) =>
      let rest := annotateTGs anns tgs
      (tg2 :: rest.1, rest.2)

/-- Embeds `Annotate`: the entry point. -/
def Annotate (diff : JobDiff) (anns : Option PlanAnnotations) :
    JobDiff × Option MalformedCountError :=
  if diff.Ty ≠ DiffType.Edited then (diff, none)
  else if diff.TaskGroups.length = 0 then (diff, none)
  else
    ({ diff with TaskGroups := (annotateTGs anns diff.TaskGroups).1 },
      (annotateTGs anns diff.TaskGroups).2)

/-- Allow-list used by the theorems to characterise `objectsScan`. -/
def isSafeObjectName (s : String) : Bool :=
  s == "LogConfig" || s == "Service" || s == "Constraint"

/-! ### Lemmas about the task classifier -/

lemma objectsScan_eq (d : Bool) (os : List ObjectDiff) :
    objectsScan d os = (d || os.any fun o => !(isSafeObjectName o.Name)) := by
  induction os generalizing d with
  | nil => simp [objectsScan]
  | cons o os ih =>
    unfold objectsScan
    split
    next heq => simp [List.any_cons, isSafeObjectName, heq, ih]
    next heq => simp [List.any_cons, isSafeObjectName, heq, ih]
    next heq => simp [List.any_cons, isSafeObjectName, heq, ih]
    next h1 h2 h3 =>
      simp only [List.any_cons, isSafeObjectName, ih]
      have hu : (o.Name == "LogConfig" || o.Name == "Service" || o.Name == "Constraint")
          = false := by
        simp only [Bool.or_eq_false_iff, beq_eq_false_iff_ne, ne_eq]
        exact ⟨⟨h1, h2⟩, h3⟩
      simp [hu]

lemma objectsScan_perm (d : Bool) (os os' : List ObjectDiff) (h : os.Perm os') :
    objectsScan d os = objectsScan d os' := by
  rw [objectsScan_eq, objectsScan_eq]
  congr 1
  rw [Bool.eq_iff_iff]
  simp only [List.any_eq_true]
  constructor
  · rintro ⟨x, hx, hpx⟩
    exact ⟨x, h.mem_iff.mp hx, hpx⟩
  · rintro ⟨x, hx, hpx⟩
    exact ⟨x, h.mem_iff.mpr hx, hpx⟩

/-- The Boolean "destructive" verdict of `annotateTask`, written as the
condition of the claims: nonempty `Fields`, or some object outside the
allow-list. -/
lemma annotateTask_edited (d : TaskDiff) (h : d.Ty = DiffType.Edited) :
    annotateTask d =
      { d with Annotations := d.Annotations ++
          [if (d.Fields.length != 0) || d.Objects.any fun o => !(isSafeObjectName o.Name)
            then AnnotationForcesDestructiveUpdate
            else AnnotationForcesInplaceUpdate] } := by
  unfold annotateTask
  simp only [h, ne_eq, not_true_eq_false, if_false, objectsScan_eq]
  by_cases hb :
      ((d.Fields.length != 0) || d.Objects.any fun o => !(isSafeObjectName o.Name)) = true
  · simp [hb]
  · simp only [Bool.not_eq_true] at hb
    simp [hb]

lemma annotateTask_not_edited (d : TaskDiff) (h : d.Ty ≠ DiffType.Edited) :
    annotateTask d = d := by
  unfold annotateTask
  simp [h]

lemma labels_ne : AnnotationForcesInplaceUpdate ≠ AnnotationForcesDestructiveUpdate := by
  decide

/-- C1: an edited task diff gets exactly one appended annotation, the
destructive label exactly when `Fields` is nonempty or some object name is
outside the allow-list {LogConfig, Service, Constraint}, and the in-place
label otherwise; afterwards exactly one of the two labels is present
(provided neither was present before the call). -/
theorem c1_annotateTask_exactly_one_label (d : TaskDiff) (h : d.Ty = DiffType.Edited) :
    ((annotateTask d).Annotations =
      d.Annotations ++
        [if (d.Fields.length != 0) || d.Objects.any fun o => !(isSafeObjectName o.Name)
          then AnnotationForcesDestructiveUpdate
          else AnnotationForcesInplaceUpdate]) ∧
    (AnnotationForcesDestructiveUpdate ∉ d.Annotations →
      AnnotationForcesInplaceUpdate ∉ d.Annotations →
      (AnnotationForcesDestructiveUpdate ∈ (annotateTask d).Annotations ↔
        AnnotationForcesInplaceUpdate ∉ (annotateTask d).Annotations)) := by
  rw [annotateTask_edited d h]
  refine ⟨rfl, ?_⟩
  intro hd hi
  by_cases hb :
      ((d.Fields.length != 0) || d.Objects.any fun o => !(isSafeObjectName o.Name)) = true
  · simp [hb, List.mem_append, hd, hi, labels_ne]
  · simp only [Bool.not_eq_true] at hb
    simp [hb, List.mem_append, hd, hi, Ne.symm labels_ne, labels_ne]

/-- Concrete edited task with one non-allow-listed object, for the C1
witness. -/
def taskTemplate : TaskDiff :=
  { Ty := DiffType.Edited, Fields := [], Objects := [{ Name := "Template" }],
    Annotations := [] }

/-- Witness for C1 at a concrete edited task. -/
theorem c1_witness :
    ((annotateTask taskTemplate).Annotations =
      taskTemplate.Annotations ++
        [if (taskTemplate.Fields.length != 0)
            || taskTemplate.Objects.any fun o => !(isSafeObjectName o.Name)
          then AnnotationForcesDestructiveUpdate
          else AnnotationForcesInplaceUpdate]) ∧
    (AnnotationForcesDestructiveUpdate ∉ taskTemplate.Annotations →
      AnnotationForcesInplaceUpdate ∉ taskTemplate.Annotations →
      (AnnotationForcesDestructiveUpdate ∈ (annotateTask taskTemplate).Annotations ↔
        AnnotationForcesInplaceUpdate ∉ (annotateTask taskTemplate).Annotations)) :=
  c1_annotateTask_exactly_one_label taskTemplate rfl

/-- C5: the destructive verdict is a logical OR over all objects, hence
invariant under any permutation of `Objects`; the appended annotation does
not change when `Objects` is permuted. -/
theorem c5_objectsScan_perm_invariant (d : TaskDiff) (os' : List ObjectDiff)
    (hperm : d.Objects.Perm os') :
    (∀ b : Bool, objectsScan b d.Objects = objectsScan b os') ∧
    (∀ b : Bool, objectsScan b d.Objects =
        (b || d.Objects.any fun o => !(isSafeObjectName o.Name))) ∧
    (annotateTask { d with Objects := os' }).Annotations =
      (annotateTask d).Annotations := by
  have hany : (os'.any fun o => !(isSafeObjectName o.Name))
      = d.Objects.any fun o => !(isSafeObjectName o.Name) := by
    have h1 := objectsScan_perm false d.Objects os' hperm
    rw [objectsScan_eq, objectsScan_eq] at h1
    simpa using h1.symm
  refine ⟨fun b => objectsScan_perm b d.Objects os' hperm,
    fun b => objectsScan_eq b d.Objects, ?_⟩
  by_cases h : d.Ty = DiffType.Edited
  · rw [annotateTask_edited d h,
      annotateTask_edited { d with Objects := os' } (by simpa using h)]
    simp [hany]
  · rw [annotateTask_not_edited d h,
      annotateTask_not_edited { d with Objects := os' } (by simpa using h)]

/-- Safe and unsafe objects used by the C5 witness. -/
def objService : ObjectDiff := { Name := "Service" }

def objTemplate : ObjectDiff := { Name := "Template" }

/-- Concrete edited task whose objects are swapped by the C5 witness. -/
def taskSwap : TaskDiff :=
  { Ty := DiffType.Edited, Fields := [], Objects := [objService, objTemplate],
    Annotations := [] }

/-- Witness for C5 at a concrete task and a transposition of its objects. -/
theorem c5_witness :
    (∀ b : Bool, objectsScan b taskSwap.Objects
        = objectsScan b [objTemplate, objService]) ∧
    (∀ b : Bool, objectsScan b taskSwap.Objects =
        (b || taskSwap.Objects.any fun o => !(isSafeObjectName o.Name))) ∧
    (annotateTask { taskSwap with Objects := [objTemplate, objService] }).Annotations =
      (annotateTask taskSwap).Annotations :=
  c5_objectsScan_perm_invariant taskSwap [objTemplate, objService]
    (List.Perm.swap objTemplate objService [])

/-- C10: an edited task diff with empty `Fields` and `Objects` is classified
in-place: exactly the in-place label is appended. -/
theorem c10_empty_edited_task_inplace (d : TaskDiff) (h : d.Ty = DiffType.Edited)
    (hf : d.Fields = []) (ho : d.Objects = []) :
    (annotateTask d).Annotations = d.Annotations ++ [AnnotationForcesInplaceUpdate] := by
  rw [annotateTask_edited d h]
  simp [hf, ho]

/-- Concrete edited task with no recorded differences, for the C10 witness. -/
def taskEmpty : TaskDiff :=
  { Ty := DiffType.Edited, Fields := [], Objects := [], Annotations := [] }

/-- Witness for C10 at a concrete empty edited task. -/
theorem c10_witness :
    (annotateTask taskEmpty).Annotations =
      taskEmpty.Annotations ++ [AnnotationForcesInplaceUpdate] :=
  c10_empty_edited_task_inplace taskEmpty rfl rfl rfl

/-! ### Lemmas about the count classifier -/

lemma findCount_update (extra : List String) (fs : List FieldDiff) (cd : FieldDiff)
    (h : findCount fs = some cd) :
    findCount (updateFirstCount extra fs) =
      some { cd with Annotations := cd.Annotations ++ extra } := by
  induction fs with
  | nil => simp [findCount] at h
  | cons f fs ih =>
    by_cases hf : f.Name = "Count"
    · simp only [findCount, hf, beq_self_eq_true, if_pos, Option.some.injEq] at h
      subst h
      simp [updateFirstCount, findCount, hf]
    · simp only [findCount, beq_iff_eq, hf, if_neg, ite_false] at h
      simp [updateFirstCount, findCount, hf, ih h]

/-- C2: when an edited task group's first "Count" field parses on both
sides, the classifier succeeds, appends "forces create" when new > old,
"forces destroy" when new < old, and nothing when they are numerically
equal; never more than one directional label. -/
theorem c2_count_change_classification (d : TaskGroupDiff) (cd : FieldDiff)
    (oldV newV : Int) (h : d.Ty = DiffType.Edited)
    (hfind : findCount d.Fields = some cd)
    (hold : goAtoi cd.Old = some oldV) (hnew : goAtoi cd.New = some newV) :
    (annotateCountChange d).2 = none ∧
    findCount (annotateCountChange d).1.Fields =
      some { cd with Annotations := cd.Annotations ++
        (if oldV < newV then [AnnotationForcesCreate]
          else if newV < oldV then [AnnotationForcesDestroy] else []) } := by
  unfold annotateCountChange
  rw [if_neg (by simp [h])]
  simp only [hfind, hold, hnew]
  by_cases h1 : oldV < newV
  · simp [h1, findCount_update _ _ _ hfind]
  · by_cases h2 : newV < oldV
    · simp [h1, h2, findCount_update _ _ _ hfind]
    · simp [h1, h2, hfind]

/-- Concrete edited task group whose Count goes from "03" to "3", for the
C2 witness: numerically equal despite different text. -/
def tgCountEq : TaskGroupDiff :=
  { Ty := DiffType.Edited, Name := "g",
    Fields := [{ Name := "Count", Old := "03", New := "3", Annotations := [] }],
    Tasks := [], Updates := none, Annotations := [] }

/-- Witness for C2: "03" vs "3" parses to 3 = 3 and appends nothing. -/
theorem c2_witness :
    (annotateCountChange tgCountEq).2 = none ∧
    findCount (annotateCountChange tgCountEq).1.Fields =
      some { Name := "Count", Old := "03", New := "3",
              Annotations := [] ++ (if (3 : Int) < 3 then [AnnotationForcesCreate]
                else if (3 : Int) < 3 then [AnnotationForcesDestroy] else []) } :=
  c2_count_change_classification tgCountEq
    { Name := "Count", Old := "03", New := "3", Annotations := [] }
    3 3 rfl rfl (by decide) (by decide)

/-! ### Signed count values -/

/-- Job whose only task group changes Count from "+3" to "3". -/
def jobPlusCount : JobDiff :=
  { Ty := DiffType.Edited,
    TaskGroups := [
      { Ty := DiffType.Edited, Name := "g",
        Fields := [{ Name := "Count", Old := "+3", New := "3", Annotations := [] }],
        Tasks := [], Updates := none, Annotations := [] }] }

/-- Job whose only task group changes Count from "-1" to "2". -/
def jobNegCount : JobDiff :=
  { Ty := DiffType.Edited,
    TaskGroups := [
      { Ty := DiffType.Edited, Name := "g",
        Fields := [{ Name := "Count", Old := "-1", New := "2", Annotations := [] }],
        Tasks := [], Updates := none, Annotations := [] }] }

/-- C9: the count parser accepts an optional leading sign (a '+' prefix in
front of an unsigned body parses identically to the body), so Annotate
returns no error on signed counts: Old="+3"/New="3" succeeds with no
annotation, Old="-1"/New="2" succeeds and appends "forces create". -/
theorem c9_signed_counts_accepted (ds : List Char)
    (hp : ds.head? ≠ some '+') (hm : ds.head? ≠ some '-') :
    goAtoi (String.mk ('+' :: ds)) = goAtoi (String.mk ds) ∧
    goAtoi "+3" = some 3 ∧
    goAtoi "-1" = some (-1) ∧
    Annotate jobPlusCount none = (jobPlusCount, none) ∧
    (Annotate jobNegCount none).2 = none ∧
    (Annotate jobNegCount none).1.TaskGroups.map
        (fun tg => tg.Fields.map (fun f => f.Annotations)) =
      [[[AnnotationForcesCreate]]] := by
  refine ⟨?_, by decide, by decide, by decide, by decide, by decide⟩
  cases ds with
  | nil => rfl
  | cons c cs =>
    have h1 : c ≠ '+' := by
      intro h
      exact hp (by simp [h])
    have h2 : c ≠ '-' := by
      intro h
      exact hm (by simp [h])
    have hss : splitSign (c :: cs) = (false, c :: cs) := by
      unfold splitSign
      split
      next heq =>
        rw [List.cons.injEq] at heq
        exact absurd heq.1 h1
      next heq =>
        rw [List.cons.injEq] at heq
        exact absurd heq.1 h2
      next => rfl
    unfold goAtoi
    rw [show (String.mk ('+' :: c :: cs)).toList = '+' :: c :: cs from rfl,
      show (String.mk (c :: cs)).toList = c :: cs from rfl,
      show splitSign ('+' :: c :: cs) = (false, c :: cs) from rfl, hss]

/-- Witness for C9 at the concrete digit string "4". -/
theorem c9_witness :
    goAtoi (String.mk ('+' :: ['4'])) = goAtoi (String.mk ['4']) ∧
    goAtoi "+3" = some 3 ∧
    goAtoi "-1" = some (-1) ∧
    Annotate jobPlusCount none = (jobPlusCount, none) ∧
    (Annotate jobNegCount none).2 = none ∧
    (Annotate jobNegCount none).1.TaskGroups.map
        (fun tg => tg.Fields.map (fun f => f.Annotations)) =
      [[[AnnotationForcesCreate]]] :=
  c9_signed_counts_accepted ['4'] (by decide) (by decide)

/-! ### The no-op paths of Annotate -/

/-- C7: a job diff that is not edited, or has no task group diffs, is
returned entirely unchanged with no error. -/
theorem c7_annotate_noop (d : JobDiff) (a : Option PlanAnnotations)
    (h : d.Ty ≠ DiffType.Edited ∨ d.TaskGroups = []) :
    Annotate d a = (d, none) := by
  unfold Annotate
  rcases h with h | h
  · rw [if_pos h]
  · by_cases h2 : d.Ty = DiffType.Edited
    · rw [if_neg (by simp [h2]), if_pos (by simp [h])]
    · rw [if_pos h2]

/-- Added job used by the C7 witness. -/
def jobAdded : JobDiff :=
  { Ty := DiffType.Added,
    TaskGroups := [
      { Ty := DiffType.Added, Name := "g",
        Fields := [{ Name := "Count", Old := "", New := "abc", Annotations := [] }],
        Tasks := [], Updates := none, Annotations := [] }] }

/-- Witness for C7: an added job is untouched even with a malformed count
and a plan present. -/
theorem c7_witness :
    Annotate jobAdded (some { DesiredTGUpdates := [("g",
      { Ignore := 1, Place := 1, Migrate := 1, Stop := 1,
        InPlaceUpdate := 1, DestructiveUpdate := 1 })] }) = (jobAdded, none) :=
  c7_annotate_noop jobAdded _ (Or.inl (by decide))

/-! ### Preservation lemmas for the task-group pipeline -/

lemma mergeStep_parts (tg : TaskGroupDiff) (a : Option PlanAnnotations) :
    (mergeStep tg a).Ty = tg.Ty ∧ (mergeStep tg a).Name = tg.Name ∧
    (mergeStep tg a).Fields = tg.Fields ∧ (mergeStep tg a).Tasks = tg.Tasks ∧
    (mergeStep tg a).Annotations = tg.Annotations := by
  unfold mergeStep
  split
  · simp
  · split
    · simp
    · split <;> simp

lemma annotateCountChange_parts (d : TaskGroupDiff) :
    (annotateCountChange d).1.Ty = d.Ty ∧ (annotateCountChange d).1.Name = d.Name ∧
    (annotateCountChange d).1.Tasks = d.Tasks ∧
    (annotateCountChange d).1.Updates = d.Updates ∧
    (annotateCountChange d).1.Annotations = d.Annotations := by
  unfold annotateCountChange
  split
  · simp
  · split
    · simp
    · split
      · simp
      · split
        · simp
        · split
          · simp
          · split <;> simp

lemma annotateCountChange_err_state (d : TaskGroupDiff)
    (h : (annotateCountChange d).2 ≠ none) : (annotateCountChange d).1 = d := by
  unfold annotateCountChange at *
  split at h
  · simp at h
  · split at h
    · simp at h
    · split at h
      · simp_all
      · split at h
        · simp_all
        · split at h
          · simp at h
          · split at h
            · simp at h
            · simp_all

/-! ### Error characterisation -/

/-- Decidable characterisation of the only error condition: an edited task
group whose first "Count" field has an unparseable Old or New value. -/
def countErr (d : TaskGroupDiff) : Bool :=
  d.Ty == DiffType.Edited &&
    match findCount d.Fields with
    | none => false
    | some cd => (goAtoi cd.Old).isNone || (goAtoi cd.New).isNone

lemma countErr_iff (d : TaskGroupDiff) :
    countErr d = true ↔
      (d.Ty = DiffType.Edited ∧ ∃ cd, findCount d.Fields = some cd ∧
        (goAtoi cd.Old = none ∨ goAtoi cd.New = none)) := by
  unfold countErr
  rcases hf : findCount d.Fields with _ | cd
  · simp
  · simp [Option.isNone_iff_eq_none]

lemma countErr_congr (d d' : TaskGroupDiff) (hty : d'.Ty = d.Ty)
    (hf : d'.Fields = d.Fields) : countErr d' = countErr d := by
  unfold countErr
  rw [hty, hf]

lemma annotateCountChange_err (d : TaskGroupDiff) :
    (annotateCountChange d).2.isSome = countErr d := by
  unfold annotateCountChange countErr
  split
  next h => simp [beq_iff_eq, h]
  next h =>
    rw [not_not] at h
    split
    next hf => simp [beq_iff_eq, h]
    next cd hf =>
      rcases ho : goAtoi cd.Old with _ | oldV
      · simp [beq_iff_eq, h, ho]
      · rcases hn : goAtoi cd.New with _ | newV
        · simp [beq_iff_eq, h, ho, hn]
        · by_cases h1 : oldV < newV
          · simp [beq_iff_eq, h, ho, hn, h1]
          · by_cases h2 : newV < oldV <;> simp [beq_iff_eq, h, ho, hn, h1, h2]

lemma annotateTaskGroup_err (tg : TaskGroupDiff) (a : Option PlanAnnotations) :
    (annotateTaskGroup tg a).2.isSome = countErr tg := by
  unfold annotateTaskGroup
  split
  next h => simp [countErr, beq_iff_eq, h]
  next h =>
    have hm := mergeStep_parts tg a
    have herr := annotateCountChange_err (mergeStep tg a)
    rw [countErr_congr tg (mergeStep tg a) hm.1 hm.2.2.1] at herr
    cases hcc : annotateCountChange (mergeStep tg a) with
    | mk d2 e =>
      rw [hcc] at herr
      cases e with
      | none => simpa using herr
      | some e2 => simpa using herr

lemma annotateTaskGroup_err_state (g : TaskGroupDiff) (a : Option PlanAnnotations)
    (e : MalformedCountError) (h : (annotateTaskGroup g a).2 = some e) :
    (annotateTaskGroup g a).1 = mergeStep g a := by
  unfold annotateTaskGroup at *
  split at h
  · simp at h
  · rename_i h2
    rw [if_neg h2]
    cases hcc : annotateCountChange (mergeStep g a) with
    | mk d2 e2 =>
      rw [hcc] at h
      cases e2 with
      | none => exact Option.noConfusion (show (none : Option MalformedCountError) = some e from h)
      | some e3 =>
        have hst := annotateCountChange_err_state (mergeStep g a) (by rw [hcc]; simp)
        rw [hcc] at hst
        exact hst

lemma annotateTGs_err (a : Option PlanAnnotations) (tgs : List TaskGroupDiff) :
    (annotateTGs a tgs).2.isSome = tgs.any countErr := by
  induction tgs with
  | nil => simp [annotateTGs]
  | cons tg tgs ih =>
    have herr := annotateTaskGroup_err tg a
    cases hcc : annotateTaskGroup tg a with
    | mk tg2 e =>
      rw [hcc] at herr
      cases e with
      | none =>
        simp only [Option.isSome_none] at herr
        simp [annotateTGs, hcc, ih, herr.symm]
      | some e2 =>
        simp only [Option.isSome_some] at herr
        simp [annotateTGs, hcc, herr.symm]

lemma annotateTGs_append_ok (a : Option PlanAnnotations)
    (tgs1 rest : List TaskGroupDiff)
    (h : ∀ tg ∈ tgs1, (annotateTaskGroup tg a).2 = none) :
    annotateTGs a (tgs1 ++ rest) =
      (tgs1.map (fun t => (annotateTaskGroup t a).1) ++ (annotateTGs a rest).1,
        (annotateTGs a rest).2) := by
  induction tgs1 with
  | nil => simp [annotateTGs]
  | cons tg tgs ih =>
    have htg := h tg (by simp)
    cases hcc : annotateTaskGroup tg a with
    | mk tg2 e =>
      rw [hcc] at htg
      simp only at htg
      subst htg
      simp [annotateTGs, hcc, ih (fun t ht => h t (by simp [ht]))]

lemma annotateTGs_cons_err (a : Option PlanAnnotations) (g : TaskGroupDiff)
    (tgs2 : List TaskGroupDiff) (e : MalformedCountError)
    (h : (annotateTaskGroup g a).2 = some e) :
    annotateTGs a (g :: tgs2) = ((annotateTaskGroup g a).1 :: tgs2, some e) := by
  cases hcc : annotateTaskGroup g a with
  | mk g2 e2 =>
    rw [hcc] at h
    simp only at h
    subst h
    simp [annotateTGs, hcc]

/-- C3: Annotate fails exactly when some edited task group's first "Count"
field has an unparseable Old or New value; processing stops at the first
failing group, its tasks are not classified, and the work already done
(earlier groups' annotations, the failing group's merged Updates) is kept. -/
theorem c3_malformed_count_error_contract (d : JobDiff) (a : Option PlanAnnotations) :
    ((Annotate d a).2 ≠ none ↔
      (d.Ty = DiffType.Edited ∧ ∃ tg ∈ d.TaskGroups, tg.Ty = DiffType.Edited ∧
        ∃ cd, findCount tg.Fields = some cd ∧
          (goAtoi cd.Old = none ∨ goAtoi cd.New = none))) ∧
    (∀ tgs1 g tgs2 e, d.Ty = DiffType.Edited →
      d.TaskGroups = tgs1 ++ g :: tgs2 →
      (∀ tg ∈ tgs1, (annotateTaskGroup tg a).2 = none) →
      (annotateTaskGroup g a).2 = some e →
      Annotate d a =
        ({ d with TaskGroups :=
            tgs1.map (fun t => (annotateTaskGroup t a).1) ++
              (annotateTaskGroup g a).1 :: tgs2 }, some e) ∧
      (annotateTaskGroup g a).1 = mergeStep g a ∧
      (annotateTaskGroup g a).1.Tasks = g.Tasks) := by
  constructor
  · unfold Annotate
    by_cases h : d.Ty = DiffType.Edited
    · rw [if_neg (by simp [h])]
      by_cases hl : d.TaskGroups.length = 0
      · rw [if_pos hl]
        have hnil : d.TaskGroups = [] := List.length_eq_zero.mp hl
        simp [hnil]
      · rw [if_neg hl]
        constructor
        · intro hne
          have hs := Option.ne_none_iff_isSome.mp hne
          rw [annotateTGs_err, List.any_eq_true] at hs
          obtain ⟨tg, htg, hce⟩ := hs
          obtain ⟨hty, hrest⟩ := (countErr_iff tg).mp hce
          exact ⟨h, tg, htg, hty, hrest⟩
        · rintro ⟨-, tg, htg, hty, hrest⟩
          apply Option.ne_none_iff_isSome.mpr
          rw [annotateTGs_err, List.any_eq_true]
          exact ⟨tg, htg, (countErr_iff tg).mpr ⟨hty, hrest⟩⟩
    · rw [if_pos h]
      simp [h]
  · intro tgs1 g tgs2 e hty hsplit hpre hg
    refine ⟨?_, annotateTaskGroup_err_state g a e hg, ?_⟩
    · unfold Annotate
      rw [if_neg (by simp [hty]), if_neg (by simp [hsplit])]
      rw [hsplit, annotateTGs_append_ok a tgs1 (g :: tgs2) hpre,
        annotateTGs_cons_err a g tgs2 e hg]
    · rw [annotateTaskGroup_err_state g a e hg]
      exact (mergeStep_parts g a).2.2.2.1

/-- Healthy first task group for the C3 witness. -/
def tgOkay : TaskGroupDiff :=
  { Ty := DiffType.Edited, Name := "a", Fields := [], Tasks := [],
    Updates := none, Annotations := [] }

/-- Second task group with a malformed count, for the C3 witness. -/
def tgBadCount : TaskGroupDiff :=
  { Ty := DiffType.Edited, Name := "b",
    Fields := [{ Name := "Count", Old := "abc", New := "3", Annotations := [] }],
    Tasks := [{ Ty := DiffType.Edited, Fields := [], Objects := [],
                Annotations := [] }],
    Updates := none, Annotations := [] }

/-- Job whose second task group has the malformed count. -/
def jobBadCount : JobDiff :=
  { Ty := DiffType.Edited, TaskGroups := [tgOkay, tgBadCount] }

/-- Witness for C3: the error surfaces from the second group, the first
group keeps its annotated form, and the failing group's tasks stay
unclassified. -/
theorem c3_witness :
    Annotate jobBadCount none =
      ({ jobBadCount with TaskGroups :=
          (List.map (fun t => (annotateTaskGroup t none).1) [tgOkay] ++
            (annotateTaskGroup tgBadCount none).1 :: []) }, some ⟨"abc"⟩) ∧
    (annotateTaskGroup tgBadCount none).1 = mergeStep tgBadCount none ∧
    (annotateTaskGroup tgBadCount none).1.Tasks = tgBadCount.Tasks :=
  (c3_malformed_count_error_contract jobBadCount none).2 [tgOkay] tgBadCount []
    ⟨"abc"⟩ rfl rfl (by decide) (by decide)

/-! ### Only edited nodes are touched -/

/-- A task diff survives unchanged unless it was edited. -/
def taskKeep (t1 t2 : TaskDiff) : Prop := t1.Ty ≠ DiffType.Edited → t2 = t1

/-- A task group diff survives unchanged unless it was edited, and its
non-edited tasks survive unchanged. -/
def tgKeep (g1 g2 : TaskGroupDiff) : Prop :=
  (g1.Ty ≠ DiffType.Edited → g2 = g1) ∧ List.Forall₂ taskKeep g1.Tasks g2.Tasks

lemma annotateTaskGroup_not_edited (tg : TaskGroupDiff) (a : Option PlanAnnotations)
    (h : tg.Ty ≠ DiffType.Edited) : annotateTaskGroup tg a = (tg, none) := by
  unfold annotateTaskGroup
  rw [if_pos h]

lemma forall₂_map_self {α : Type} (r : α → α → Prop) (f : α → α) (l : List α)
    (h : ∀ x ∈ l, r x (f x)) : List.Forall₂ r l (l.map f) := by
  induction l with
  | nil => exact List.Forall₂.nil
  | cons x xs ih =>
    exact List.Forall₂.cons (h x (by simp)) (ih fun y hy => h y (by simp [hy]))

lemma forall₂_self {α : Type} (r : α → α → Prop) (l : List α)
    (h : ∀ x ∈ l, r x x) : List.Forall₂ r l l := by
  induction l with
  | nil => exact List.Forall₂.nil
  | cons x xs ih =>
    exact List.Forall₂.cons (h x (by simp)) (ih fun y hy => h y (by simp [hy]))

lemma taskKeep_refl (ts : List TaskDiff) : List.Forall₂ taskKeep ts ts :=
  forall₂_self _ _ (fun _ _ => fun _ => rfl)

lemma tgKeep_refl (tgs : List TaskGroupDiff) : List.Forall₂ tgKeep tgs tgs :=
  forall₂_self _ _ (fun g _ => ⟨fun _ => rfl, taskKeep_refl g.Tasks⟩)

lemma annotateTaskGroup_tasks (tg : TaskGroupDiff) (a : Option PlanAnnotations) :
    (annotateTaskGroup tg a).1.Tasks = tg.Tasks ∨
    (annotateTaskGroup tg a).1.Tasks = tg.Tasks.map annotateTask := by
  unfold annotateTaskGroup
  split
  · exact Or.inl rfl
  · cases hcc : annotateCountChange (mergeStep tg a) with
    | mk d2 e =>
      have hp := annotateCountChange_parts (mergeStep tg a)
      rw [hcc] at hp
      have hm := mergeStep_parts tg a
      have htask : d2.Tasks = tg.Tasks := by
        have := hp.2.2.1
        simp only at this
        rw [this, hm.2.2.2.1]
      cases e with
      | none =>
        right
        simpa using congrArg (List.map annotateTask) htask
      | some e2 =>
        left
        simpa using htask

lemma tgKeep_step (tg : TaskGroupDiff) (a : Option PlanAnnotations) :
    tgKeep tg (annotateTaskGroup tg a).1 := by
  constructor
  · intro h
    rw [annotateTaskGroup_not_edited tg a h]
  · rcases annotateTaskGroup_tasks tg a with h | h
    · rw [h]
      exact taskKeep_refl tg.Tasks
    · rw [h]
      exact forall₂_map_self _ _ _
        (fun td _ => fun hne => annotateTask_not_edited td hne)

lemma annotateTGs_forall₂ (a : Option PlanAnnotations) (tgs : List TaskGroupDiff) :
    List.Forall₂ tgKeep tgs (annotateTGs a tgs).1 := by
  induction tgs with
  | nil => exact List.Forall₂.nil
  | cons tg tgs ih =>
    have hstep := tgKeep_step tg a
    cases hcc : annotateTaskGroup tg a with
    | mk tg2 e =>
      rw [hcc] at hstep
      cases e with
      | none => exact (by simpa [annotateTGs, hcc] using List.Forall₂.cons hstep ih)
      | some e2 =>
        exact (by simpa [annotateTGs, hcc] using List.Forall₂.cons hstep (tgKeep_refl tgs))

/-- C6: only nodes whose own `Type` is Edited are ever changed: a
non-edited task group or task diff passes through `Annotate` untouched. -/
theorem c6_non_edited_nodes_unchanged (d : JobDiff) (a : Option PlanAnnotations) :
    (∀ tg, tg.Ty ≠ DiffType.Edited → annotateTaskGroup tg a = (tg, none)) ∧
    (∀ td, td.Ty ≠ DiffType.Edited → annotateTask td = td) ∧
    List.Forall₂ tgKeep d.TaskGroups (Annotate d a).1.TaskGroups := by
  refine ⟨fun tg h => annotateTaskGroup_not_edited tg a h,
    fun td h => annotateTask_not_edited td h, ?_⟩
  unfold Annotate
  by_cases h : d.Ty = DiffType.Edited
  · rw [if_neg (by simp [h])]
    by_cases hl : d.TaskGroups.length = 0
    · rw [if_pos hl]
      exact tgKeep_refl d.TaskGroups
    · rw [if_neg hl]
      exact annotateTGs_forall₂ a d.TaskGroups
  · rw [if_pos h]
    exact tgKeep_refl d.TaskGroups

/-- Witness for C6: a deleted task group passes through unchanged. -/
theorem c6_witness :
    annotateTaskGroup
      { Ty := DiffType.Deleted, Name := "g",
        Fields := [{ Name := "Count", Old := "x", New := "y", Annotations := [] }],
        Tasks := [], Updates := none, Annotations := [] } none =
      ({ Ty := DiffType.Deleted, Name := "g",
          Fields := [{ Name := "Count", Old := "x", New := "y", Annotations := [] }],
          Tasks := [], Updates := none, Annotations := [] }, none) :=
  (c6_non_edited_nodes_unchanged { Ty := DiffType.Edited, TaskGroups := [] } none).1
    _ (by decide)

/-! ### The Updates merge -/

lemma mergeUpdates_nil (u : DesiredUpdates) :
    mergeUpdates u [] =
      List.filter (fun p => p.2 != 0)
        [(UpdateTypeIgnore, u.Ignore), (UpdateTypeCreate, u.Place),
          (UpdateTypeMigrate, u.Migrate), (UpdateTypeDestroy, u.Stop),
          (UpdateTypeInplaceUpdate, u.InPlaceUpdate),
          (UpdateTypeDestructiveUpdate, u.DestructiveUpdate)] := by
  by_cases h1 : u.Ignore = 0 <;> by_cases h2 : u.Place = 0 <;>
    by_cases h3 : u.Migrate = 0 <;> by_cases h4 : u.Stop = 0 <;>
    by_cases h5 : u.InPlaceUpdate = 0 <;> by_cases h6 : u.DestructiveUpdate = 0 <;>
    simp [mergeUpdates, mapInsert, UpdateTypeIgnore, UpdateTypeCreate,
      UpdateTypeMigrate, UpdateTypeDestroy, UpdateTypeInplaceUpdate,
      UpdateTypeDestructiveUpdate, h1, h2, h3, h4, h5, h6]

lemma annotateTaskGroup_updates (tg : TaskGroupDiff) (a : Option PlanAnnotations)
    (h : tg.Ty = DiffType.Edited) :
    (annotateTaskGroup tg a).1.Updates = (mergeStep tg a).Updates := by
  unfold annotateTaskGroup
  rw [if_neg (by simp [h])]
  cases hcc : annotateCountChange (mergeStep tg a) with
  | mk d2 e =>
    have hp := annotateCountChange_parts (mergeStep tg a)
    rw [hcc] at hp
    cases e with
    | none => simpa using hp.2.2.2.1
    | some e2 => simpa using hp.2.2.2.1

/-- C4: when the plan has desired-update counts for an edited task group
(whose Updates map starts out nil), exactly the nonzero counts are written
under the six fixed keys and no other key appears. -/
theorem c4_update_counts_merged (tg : TaskGroupDiff) (a : PlanAnnotations)
    (u : DesiredUpdates) (h : tg.Ty = DiffType.Edited)
    (hlook : lookupTG a.DesiredTGUpdates tg.Name = some u)
    (hnil : tg.Updates = none) :
    (annotateTaskGroup tg (some a)).1.Updates =
      some (List.filter (fun p => p.2 != 0)
        [(UpdateTypeIgnore, u.Ignore), (UpdateTypeCreate, u.Place),
          (UpdateTypeMigrate, u.Migrate), (UpdateTypeDestroy, u.Stop),
          (UpdateTypeInplaceUpdate, u.InPlaceUpdate),
          (UpdateTypeDestructiveUpdate, u.DestructiveUpdate)]) := by
  rw [annotateTaskGroup_updates tg (some a) h]
  unfold mergeStep
  simp only [hlook, hnil, mergeUpdates_nil]

/-- The claim's example counts: two placements and one stop. -/
def uPlaceStop : DesiredUpdates :=
  { Ignore := 0, Place := 2, Migrate := 0, Stop := 1,
    InPlaceUpdate := 0, DestructiveUpdate := 0 }

/-- The "web" task group, edited, with a nil Updates map. -/
def tgWeb : TaskGroupDiff :=
  { Ty := DiffType.Edited, Name := "web", Fields := [], Tasks := [],
    Updates := none, Annotations := [] }

/-- Plan carrying the example counts for "web". -/
def planWeb : PlanAnnotations := { DesiredTGUpdates := [("web", uPlaceStop)] }

/-- Witness for C4: the example produces exactly create=2, destroy=1. -/
theorem c4_witness :
    (annotateTaskGroup tgWeb (some planWeb)).1.Updates =
      some [(UpdateTypeCreate, 2), (UpdateTypeDestroy, 1)] := by
  have hm := c4_update_counts_merged tgWeb planWeb uPlaceStop rfl (by decide) rfl
  simpa using hm

/-- C8: an edited group with a nil Updates map whose plan entry has all six
counts zero ends with an allocated empty map (`some []`), while a group
with no plan entry keeps the nil map (`none`): the two are distinguishable
even though no key is written in either case. -/
theorem c8_empty_map_vs_nil (tg : TaskGroupDiff) (a : PlanAnnotations)
    (u : DesiredUpdates) (h : tg.Ty = DiffType.Edited) (hnil : tg.Updates = none) :
    (lookupTG a.DesiredTGUpdates tg.Name = some u →
      u.Ignore = 0 → u.Place = 0 → u.Migrate = 0 → u.Stop = 0 →
      u.InPlaceUpdate = 0 → u.DestructiveUpdate = 0 →
      (annotateTaskGroup tg (some a)).1.Updates = some []) ∧
    (lookupTG a.DesiredTGUpdates tg.Name = none →
      (annotateTaskGroup tg (some a)).1.Updates = none) := by
  constructor
  · intro hlook z1 z2 z3 z4 z5 z6
    rw [annotateTaskGroup_updates tg (some a) h]
    unfold mergeStep
    simp only [hlook, hnil, mergeUpdates_nil]
    simp [z1, z2, z3, z4, z5, z6]
  · intro hlook
    rw [annotateTaskGroup_updates tg (some a) h]
    unfold mergeStep
    simp only [hlook, hnil]

/-- All-zero counts record for the C8 witness. -/
def uZero : DesiredUpdates :=
  { Ignore := 0, Place := 0, Migrate := 0, Stop := 0,
    InPlaceUpdate := 0, DestructiveUpdate := 0 }

/-- Plan carrying all-zero counts for "web". -/
def planWebZero : PlanAnnotations := { DesiredTGUpdates := [("web", uZero)] }

/-- Witness for C8: the all-zero entry yields an allocated empty map. -/
theorem c8_witness :
    (annotateTaskGroup tgWeb (some planWebZero)).1.Updates = some [] :=
  (c8_empty_map_vs_nil tgWeb planWebZero uZero rfl rfl).1 (by decide)
    rfl rfl rfl rfl rfl rfl

end NomadAnnotate
